import Mathlib

/-!
Verification of the transaction store of `src/App.tsx` (a personal finance
tracker): the localStorage initializer/normalizer (lines 10–55), the
`addTransaction` / `deleteTransaction` mutators (lines 61–72) and the
balance aggregation (lines 74–92).

JavaScript runtime values are embedded as `JsValue`; JS numbers are modelled
as exact rationals plus an explicit `NaN` (`JsNum`), so `Number(...)`
coercions that fail yield `JsNum.nan` as in the runtime.  The host builtins
the component calls (`Number`, `String`, `JSON.parse` results, `Date`
parsing) are modelled below, each with a doc comment stating its scope.
-/

/-- A JavaScript number: either an exact (finite) value, modelled as a
rational, or `NaN`.  Infinities do not arise in the modelled code paths and
are not represented. -/
inductive JsNum where
  | nan : JsNum
  | val (q : ℚ) : JsNum
deriving DecidableEq, Repr

/-- A JavaScript runtime value, covering everything `JSON.parse` can produce
plus `undefined` (the result of a missing property access). -/
inductive JsValue where
  | null : JsValue
  | undefined : JsValue
  | bool (b : Bool) : JsValue
  | num (n : JsNum) : JsValue
  | str (s : String) : JsValue
  | arr (xs : List JsValue) : JsValue
  | obj (fields : List (String × JsValue)) : JsValue
deriving Repr

/-- JS truthiness: `false`, `0`, `NaN`, `""`, `null`, `undefined` are falsy;
every other value (all objects and arrays included) is truthy. -/
def truthy : JsValue → Bool
  | .null => false
  | .undefined => false
  | .bool b => b
  | .num .nan => false
  | .num (.val q) => q ≠ 0
  | .str s => s ≠ ""
  | .arr _ => true
  | .obj _ => true

/-- The JS `a || b` operator: `a` when truthy, otherwise `b`. -/
def jsOr (a b : JsValue) : JsValue := if truthy a then a else b

/-- Property lookup in an object literal's field list.  `JSON.parse` keeps
the last occurrence of a duplicated key, so the later binding wins. -/
def lookupField : List (String × JsValue) → String → JsValue
  | [], _ => .undefined
  | (k', v) :: fs, k =>
    match lookupField fs k with
    | .undefined => if k' = k then v else .undefined
    | r => r

/-- Property access `v.k`.  On primitives (numbers, strings, booleans) the
modelled properties are absent, so access yields `undefined`; on `null` and
`undefined` a real access throws, but every use below is guarded, and the
guards are made explicit at the use sites. -/
def getField (v : JsValue) (k : String) : JsValue :=
  match v with
  | .obj fs => lookupField fs k
  | _ => .undefined

/-- JS whitespace stripped by `Number(string)` (the common ASCII cases). -/
def isWs (c : Char) : Bool := c = ' ' || c = '\t' || c = '\n' || c = '\r'

/-- Trim leading and trailing whitespace from a character list. -/
def trimWs (cs : List Char) : List Char :=
  ((cs.dropWhile isWs).reverse.dropWhile isWs).reverse

/-- Decimal digits to a natural number (most significant first). -/
def digitsToNat (ds : List Char) : ℕ :=
  ds.foldl (fun a c => a * 10 + (c.toNat - 48)) 0

/-- Parse an unsigned decimal mantissa: `d+`, `d+.d*` or `.d+`; returns the
value and the unconsumed suffix. -/
def parseMantissa (cs : List Char) : Option (ℚ × List Char) :=
  let p := cs.span Char.isDigit
  match p.2 with
  | '.' :: r =>
    let f := r.span Char.isDigit
    if p.1.isEmpty && f.1.isEmpty then none
    else some ((digitsToNat p.1 : ℚ) + (digitsToNat f.1 : ℚ) / (10 : ℚ) ^ f.1.length, f.2)
  | _ => if p.1.isEmpty then none else some ((digitsToNat p.1 : ℚ), p.2)

/-- Parse an optionally signed digit string that must span the whole input. -/
def parseSignedDigits : List Char → Option ℤ
  | '-' :: r => if !r.isEmpty && r.all Char.isDigit then some (-(digitsToNat r : ℤ)) else none
  | '+' :: r => if !r.isEmpty && r.all Char.isDigit then some ((digitsToNat r : ℤ)) else none
  | r => if !r.isEmpty && r.all Char.isDigit then some ((digitsToNat r : ℤ)) else none

/-- Parse the optional exponent suffix (`e`/`E` followed by a signed
integer); the empty suffix means exponent `0`. -/
def parseExpPart : List Char → Option ℤ
  | [] => some 0
  | 'e' :: r => parseSignedDigits r
  | 'E' :: r => parseSignedDigits r
  | _ => none

/-- Models `Number(s)` on strings: whitespace-only is `0`; otherwise an
optionally signed decimal literal with optional fraction and exponent;
anything else is `NaN`.  (Hex literals and `Infinity`, which the runtime
also accepts, do not occur in the modelled data and are not represented.) -/
def strToNumber (s : String) : JsNum :=
  let cs := trimWs s.toList
  if cs.isEmpty then .val 0
  else
    let sc : ℚ × List Char :=
      match cs with
      | '-' :: r => (-1, r)
      | '+' :: r => (1, r)
      | _ => (1, cs)
    match parseMantissa sc.2 with
    | none => .nan
    | some (m, rest) =>
      match parseExpPart rest with
      | none => .nan
      | some e => .val (sc.1 * m * (10 : ℚ) ^ e)

/-- Decimal digits of a fraction in `[0,1)`, up to the fuel bound (JS prints
at most 17 significant digits; parsed decimal literals terminate sooner). -/
def fracDigits : ℚ → ℕ → List Char
  | _, 0 => []
  | q, fuel + 1 =>
    if q = 0 then []
    else
      let q10 := q * 10
      let d := ⌊q10⌋
      Char.ofNat (d.toNat + 48) :: fracDigits (q10 - d) fuel

/-- Models `String(n)` on finite JS numbers: sign, integer part, and a
fractional part when nonzero. -/
def numToString (q : ℚ) : String :=
  let sgn := if q < 0 then "-" else ""
  let aq := |q|
  let ip := (⌊aq⌋).toNat
  let fp := aq - ⌊aq⌋
  sgn ++ Nat.repr ip ++ (if fp = 0 then "" else "." ++ String.mk (fracDigits fp 30))

mutual

/-- Models the JS `String(v)` coercion.  Arrays stringify as their elements
joined by commas (with `null`/`undefined` elements as empty); plain objects
stringify as `"[object Object]"`. -/
def jsToString : JsValue → String
  | .null => "null"
  | .undefined => "undefined"
  | .bool true => "true"
  | .bool false => "false"
  | .num .nan => "NaN"
  | .num (.val q) => numToString q
  | .str s => s
  | .arr xs => arrToString xs
  | .obj _ => "[object Object]"

/-- Models `Array.prototype.toString`: elements joined by `","`. -/
def arrToString : List JsValue → String
  | [] => ""
  | [x] => elemToString x
  | x :: y :: xs => elemToString x ++ "," ++ arrToString (y :: xs)

/-- Element stringification inside `Array.prototype.join`: `null` and
`undefined` become the empty string. -/
def elemToString : JsValue → String
  | .null => ""
  | .undefined => ""
  | v => jsToString v

end

/-- Models the JS `Number(v)` coercion: `null ↦ 0`, `undefined ↦ NaN`,
booleans to `0`/`1`, strings via the decimal parser, arrays via their string
form, plain objects to `NaN`. -/
def toNumber : JsValue → JsNum
  | .null => .val 0
  | .undefined => .nan
  | .bool true => .val 1
  | .bool false => .val 0
  | .num n => n
  | .str s => strToNumber s
  | .arr xs => strToNumber (arrToString xs)
  | .obj _ => .nan

/-- Modelled from the spec: the `TransactionType` enum of `src/types.ts`
(the file is not under `src/`).  The spec enumerates exactly two members,
INCOME and EXPENSE, and its scenario treats the lowercase string
`"income"` as unrecognized, so the enum's string values are `"INCOME"` and
`"EXPENSE"`. -/
inductive TransactionType where
  | INCOME : TransactionType
  | EXPENSE : TransactionType
deriving DecidableEq, Repr

/-- The list `Object.values(TransactionType)` — the enum's string values. -/
def transactionTypeValues : List String := ["INCOME", "EXPENSE"]

/-- Modelled from the spec: the `Transaction` entity of `src/types.ts` (the
file is not under `src/`), with the field set the spec and `App.tsx` use:
id, description, amount, type, date.  `amount` is kept as a runtime value
(`JsValue`) because the data flows through `any`-typed normalization and the
aggregator re-checks `typeof amount === 'number'` at line 79; `date` is the
numeric timestamp of the stored `Date`. -/
structure Transaction where
  id : String
  description : String
  amount : JsValue
  type : TransactionType
  date : ℚ
deriving Repr

/-- The four diagnostics the initializer can log: the two `console.warn`
calls about dates (lines 23 and 27, each interpolating the raw `t.id`), the
not-an-array warning (line 46) and the catch-all parse error (line 50). -/
inductive Diag where
  | invalidDate (id : JsValue) (value : JsValue) : Diag
  | missingDate (id : JsValue) : Diag
  | notArray : Diag
  | parseFailure : Diag
deriving Repr

/-- The raw id a date diagnostic interpolates, when it has one. -/
def Diag.refId : Diag → Option JsValue
  | .invalidDate i _ => some i
  | .missingDate i => some i
  | .notArray => none
  | .parseFailure => none

/-- Injective timestamp for a calendar day, standing in for the epoch
millisecond count (its exact value is irrelevant to every property below;
only validity and injectivity matter). -/
def isoDayTime (y m d : ℕ) : ℚ :=
  (((y * 372 + (m - 1) * 31 + (d - 1) : ℕ) : ℚ) - (1970 * 372 : ℕ)) * 86400000

/-- Models host parsing of an ISO `YYYY-MM-DD` date string; any other string
is an invalid date (`NaN`).  Time-of-day suffixes and legacy formats, which
the host also accepts, do not occur in the modelled data. -/
def isoDateToTime (cs : List Char) : JsNum :=
  match cs with
  | [y1, y2, y3, y4, '-', m1, m2, '-', d1, d2] =>
    if [y1, y2, y3, y4, m1, m2, d1, d2].all Char.isDigit then
      let m := digitsToNat [m1, m2]
      let d := digitsToNat [d1, d2]
      if 1 ≤ m ∧ m ≤ 12 ∧ 1 ≤ d ∧ d ≤ 31 then
        .val (isoDayTime (digitsToNat [y1, y2, y3, y4]) m d)
      else .nan
    else .nan
  | _ => .nan

/-- Models `new Date(v).getTime()` on the values `t.date` can hold: numbers
pass through (`NaN` stays invalid), strings go through the ISO parser,
booleans and `null` coerce through `Number`, arrays stringify first, plain
objects are invalid. -/
def jsDateParse : JsValue → JsNum
  | .num n => n
  | .str s => isoDateToTime s.toList
  | .null => .val 0
  | .bool true => .val 1
  | .bool false => .val 0
  | .arr xs => isoDateToTime (arrToString xs).toList
  | .obj _ => .nan
  | .undefined => .nan

/-- Line 35: `Object.values(TransactionType).includes(t.type) ? t.type :
TransactionType.EXPENSE` — a raw `type` is kept only when it is (strictly
equal to) one of the enum's string values, and the kept string is the
corresponding enum member; everything else defaults to EXPENSE. -/
def normType (v : JsValue) : TransactionType :=
  match v with
  | .str s =>
    if transactionTypeValues.contains s then
      if s = "INCOME" then TransactionType.INCOME else TransactionType.EXPENSE
    else TransactionType.EXPENSE
  | _ => TransactionType.EXPENSE

/-- One iteration of the initializer's `map` callback (`App.tsx` lines
18–43) as a total function, defined for elements on which the callback
returns (i.e. non-`null`, non-`undefined` — see `normalizeElement` for the
throwing case).  `now` is the time `new Date()` yields during this
iteration, `freshId` the value `crypto.randomUUID()` would return.
Returns the repaired transaction and the date diagnostics warned. -/
def normalizeRecord (now : ℚ) (freshId : String) (t : JsValue) : Transaction × List Diag :=
  let rawId := getField t "id"
  let rawDate := getField t "date"
  let dateRes : ℚ × List Diag :=
    if truthy t && truthy rawDate then
      match jsDateParse rawDate with
      | .nan => (now, [.invalidDate rawId rawDate])
      | .val ms => (ms, [])
    else (now, [.missingDate rawId])
  { id := jsToString (jsOr rawId (.str freshId))
    description := jsToString (jsOr (getField t "description") (.str "N/A"))
    amount := .num (toNumber (jsOr (getField t "amount") (.num (.val 0))))
    type := normType (getField t "type")
    date := dateRes.1 } |> fun tx => (tx, dateRes.2)

/-- The map callback with its throwing behaviour: when the element is `null`
(or `undefined`), the template literal `${t.id}` at line 27 dereferences
`t.id` before anything is returned, so the callback throws a `TypeError`
(`error`); otherwise it returns the repaired record. -/
def normalizeElement (now : ℚ) (freshId : String) (t : JsValue) :
    Except Unit (Transaction × List Diag) :=
  match t with
  | .null => .error ()
  | .undefined => .error ()
  | _ => .ok (normalizeRecord now freshId t)

/-- The initializer's `typedTransactions.map ...` over the decoded array,
threading the fresh-id supply by element index and propagating a thrown
`TypeError` from any element.  Diagnostics are collected in element order. -/
def normalizeList (now : ℚ) (ids : ℕ → String) : ℕ → List JsValue →
    Except Unit (List Transaction × List Diag)
  | _, [] => .ok ([], [])
  | i, x :: xs =>
    match normalizeElement now (ids i) x with
    | .error e => .error e
    | .ok (tx, ds) =>
      match normalizeList now ids (i + 1) xs with
      | .error e => .error e
      | .ok (txs, ds') => .ok (tx :: txs, ds ++ ds')

/-- The body of the initializer's `try` (lines 13–48) over the outcome of
`JSON.parse` (`parsed`: `error` when parsing threw), together with the
surrounding `catch` (lines 49–52): a non-array payload resets to the empty
list with the line-46 warning; a throw from `JSON.parse` or from the map
callback is caught and resets to the empty list with the line-50 error.
The trailing `.filter(t => t !== null)` at line 44 is the identity (the map
callback never returns `null`) and is not represented separately. -/
def normalizeSaved (now : ℚ) (ids : ℕ → String) (parsed : Except Unit JsValue) :
    List Transaction × List Diag :=
  match parsed with
  | .error _ => ([], [.parseFailure])
  | .ok v =>
    match v with
    | .arr xs =>
      match normalizeList now ids 0 xs with
      | .ok r => r
      | .error _ => ([], [.parseFailure])
    | _ => ([], [.notArray])

/-- The whole `useState` initializer (lines 10–55): when the storage slot is
absent (`getItem` returned `null`, so `if (savedTransactions)` fails) the
state starts empty with no diagnostic; otherwise the saved text is parsed
and normalized. -/
def initTransactions (now : ℚ) (ids : ℕ → String) :
    Option (Except Unit JsValue) → List Transaction × List Diag
  | none => ([], [])
  | some parsed => normalizeSaved now ids parsed

/-- Models `addTransaction` (lines 61–66): spreads the submitted
`{description, amount, type}` and appends one record with the fresh id and
the current time. -/
def addTransaction (description : String) (amount : JsValue) (type : TransactionType)
    (freshId : String) (now : ℚ) (ts : List Transaction) : List Transaction :=
  ts ++ [{ id := freshId, description := description, amount := amount,
           type := type, date := now }]

/-- Models `deleteTransaction` (lines 68–72): keeps exactly the records whose id
differs from the argument. -/
def deleteTransaction (id : String) (ts : List Transaction) : List Transaction :=
  ts.filter fun t => t.id ≠ id

/-- JS addition on numbers: `NaN` absorbs, finite values add exactly. -/
def jadd : JsNum → JsNum → JsNum
  | .nan, _ => .nan
  | .val _, .nan => .nan
  | .val a, .val b => .val (a + b)

/-- JS subtraction on numbers: `NaN` absorbs, finite values subtract. -/
def jsub : JsNum → JsNum → JsNum
  | .nan, _ => .nan
  | .val _, .nan => .nan
  | .val a, .val b => .val (a - b)

instance : Add JsNum := ⟨jadd⟩

instance : Zero JsNum := ⟨.val 0⟩

/-- The guard `typeof v === 'number'` — true for every `num`, including `NaN`. -/
def isNumberValue : JsValue → Bool
  | .num _ => true
  | _ => false

/-- The numeric content of a value that passed the `typeof` guard. -/
def numOf : JsValue → JsNum
  | .num n => n
  | _ => .nan

/-- One step of the aggregation loop (`App.tsx` lines 77–86): a record is
counted only when `typeof amount === 'number'` (a `Transaction` is an
object, so the `transaction &&` conjunct is always true); income if
`type === INCOME`, expense otherwise. -/
def aggregateStep (acc : JsNum × JsNum) (t : Transaction) : JsNum × JsNum :=
  if isNumberValue t.amount then
    match t.type with
    | .INCOME => (jadd acc.1 (numOf t.amount), acc.2)
    | .EXPENSE => (acc.1, jadd acc.2 (numOf t.amount))
  else acc

/-- The derived figures of the `useMemo` (lines 74–92). -/
structure Aggregates where
  totalIncome : JsNum
  totalExpenses : JsNum
  balance : JsNum
deriving DecidableEq, Repr

/-- The aggregation (lines 74–92): fold the loop over the collection
starting from `income = 0`, `expenses = 0`; `balance = income - expenses`. -/
def aggregate (ts : List Transaction) : Aggregates :=
  let r := ts.foldl aggregateStep (.val 0, .val 0)
  { totalIncome := r.1, totalExpenses := r.2, balance := jsub r.1 r.2 }

/-- Spec-side definition (§4.4): sum of `amount` over the transactions whose
`type` equals INCOME and whose amount passes the numeric guard. -/
def specTotalIncome (ts : List Transaction) : JsNum :=
  ((ts.filter fun t => isNumberValue t.amount && decide (t.type = TransactionType.INCOME)).map
    fun t => numOf t.amount).sum

/-- Spec-side definition (§4.4): sum of `amount` over the transactions whose
`type` is not INCOME, under the same numeric guard. -/
def specTotalExpenses (ts : List Transaction) : JsNum :=
  ((ts.filter fun t => isNumberValue t.amount && !decide (t.type = TransactionType.INCOME)).map
    fun t => numOf t.amount).sum

instance : AddCommMonoid JsNum where
  add_assoc a b c := by
    cases a <;> cases b <;> cases c <;>
      first | rfl | exact congrArg JsNum.val (add_assoc _ _ _)
  zero_add a := by
    cases a <;> first | rfl | exact congrArg JsNum.val (zero_add _)
  add_zero a := by
    cases a <;> first | rfl | exact congrArg JsNum.val (add_zero _)
  add_comm a b := by
    cases a <;> cases b <;>
      first | rfl | exact congrArg JsNum.val (add_comm _ _)
  nsmul := nsmulRec

/-- Spec-side companion to the map over a decoded array: one repaired record
per element, in element order, threading the fresh-id supply by index. -/
def normalizeAllFrom (now : ℚ) (ids : ℕ → String) : ℕ → List JsValue → List Transaction
  | _, [] => []
  | i, x :: xs => (normalizeRecord now (ids i) x).1 :: normalizeAllFrom now ids (i + 1) xs

/-- A deterministic stand-in for the `crypto.randomUUID` supply. -/
def uidSupply : ℕ → String := fun i => "uid-" ++ Nat.repr i

/-- Concrete records used to instantiate the hypotheses of the theorems. -/
def txA : Transaction :=
  { id := "a", description := "Salary", amount := .num (.val 1000),
    type := .INCOME, date := 0 }

def txB : Transaction :=
  { id := "b", description := "Rent", amount := .num (.val 200),
    type := .EXPENSE, date := 0 }

def txC : Transaction :=
  { id := "c", description := "Food", amount := .num (.val 50),
    type := .EXPENSE, date := 0 }

def txBdup : Transaction :=
  { id := "b", description := "Duplicate", amount := .num (.val 5),
    type := .EXPENSE, date := 1 }

/-- Models `Array.isArray` — the line-15 shape check. -/
def isArrValue : JsValue → Bool
  | .arr _ => true
  | _ => false

/-- The spec §8 scenario payload element
`{id:"a", amount:"50", type:"income"}`. -/
def scenObj : JsValue :=
  .obj [("id", .str "a"), ("amount", .str "50"), ("type", .str "income")]

/-- A record whose date string does not parse. -/
def badDateObj : JsValue :=
  .obj [("id", .str "x"), ("date", .str "not-a-date")]

/-- A record whose amount is a truthy non-numeric string. -/
def badAmountObj : JsValue :=
  .obj [("id", .str "a"), ("amount", .str "abc")]

theorem jadd_eq_add (a b : JsNum) : jadd a b = a + b := rfl

theorem val_zero_eq_zero : JsNum.val 0 = (0 : JsNum) := rfl

/-- The aggregation loop, from any intermediate accumulator, adds exactly
the guarded income and expense sums of the remaining records. -/
theorem foldl_aggregateStep (ts : List Transaction) (a e : JsNum) :
    ts.foldl aggregateStep (a, e) = (a + specTotalIncome ts, e + specTotalExpenses ts) := by
  induction ts generalizing a e with
  | nil => simp [specTotalIncome, specTotalExpenses]
  | cons t ts ih =>
    rw [List.foldl_cons]
    by_cases hn : isNumberValue t.amount
    · cases ht : t.type with
      | INCOME =>
        simp only [aggregateStep, hn, ht, if_true, ih, jadd_eq_add]
        simp [specTotalIncome, specTotalExpenses, List.filter_cons, hn, ht, add_assoc]
      | EXPENSE =>
        simp only [aggregateStep, hn, ht, if_true, ih, jadd_eq_add]
        simp [specTotalIncome, specTotalExpenses, List.filter_cons, hn, ht, add_assoc]
    · simp only [aggregateStep, hn, Bool.false_eq_true, if_false, ih]
      simp [specTotalIncome, specTotalExpenses, List.filter_cons, hn]

/-- The aggregation equals its spec-side description: guarded income sum,
guarded expense sum, and their JS difference. -/
theorem aggregate_eq_spec (ts : List Transaction) :
    aggregate ts =
      { totalIncome := specTotalIncome ts, totalExpenses := specTotalExpenses ts,
        balance := jsub (specTotalIncome ts) (specTotalExpenses ts) } := by
  unfold aggregate
  rw [foldl_aggregateStep, val_zero_eq_zero, zero_add, zero_add]

/-- C1: for every transaction collection, the aggregation computes
`totalIncome` as the sum of `amount` over the transactions whose `type` is
INCOME and whose `amount` passes the numeric guard, `totalExpenses` as the
sum over the transactions whose `type` is not INCOME under the same guard
(records with non-number amounts contribute to neither sum), and `balance`
as `totalIncome` minus `totalExpenses`. -/
theorem aggregation_matches_spec (ts : List Transaction) :
    aggregate ts =
      { totalIncome := specTotalIncome ts, totalExpenses := specTotalExpenses ts,
        balance := jsub (specTotalIncome ts) (specTotalExpenses ts) } :=
  aggregate_eq_spec ts

/-- C9: permuting the collection changes none of the three aggregates. -/
theorem aggregation_perm_invariant (ts ts' : List Transaction) (h : ts.Perm ts') :
    aggregate ts = aggregate ts' := by
  have hI : specTotalIncome ts = specTotalIncome ts' := by
    unfold specTotalIncome
    exact ((h.filter _).map fun t => numOf t.amount).sum_eq
  have hE : specTotalExpenses ts = specTotalExpenses ts' := by
    unfold specTotalExpenses
    exact ((h.filter _).map fun t => numOf t.amount).sum_eq
  rw [aggregate_eq_spec, aggregate_eq_spec, hI, hE]

/-- Witness for C9 at a concrete two-element swap. -/
theorem aggregation_perm_invariant_witness :
    aggregate [txA, txB] = aggregate [txB, txA] :=
  aggregation_perm_invariant [txA, txB] [txB, txA] (List.Perm.swap txB txA [])

/-- C7: `delete(id)` removes the unique element carrying `id` (when the ids
around it differ), keeping the remainder in order; when no element carries
`id` it is a no-op. -/
theorem delete_unique_or_noop (id : String) (ts l1 l2 : List Transaction) (t : Transaction) :
    ((∀ u ∈ ts, u.id ≠ id) → deleteTransaction id ts = ts) ∧
    (ts = l1 ++ t :: l2 → t.id = id → (∀ u ∈ l1, u.id ≠ id) → (∀ u ∈ l2, u.id ≠ id) →
      deleteTransaction id ts = l1 ++ l2) := by
  constructor
  · intro h
    exact List.filter_eq_self.mpr fun u hu => by simpa using h u hu
  · rintro rfl ht h1 h2
    unfold deleteTransaction
    rw [List.filter_append, List.filter_cons]
    rw [List.filter_eq_self.mpr fun u hu => by simpa using h1 u hu]
    rw [List.filter_eq_self.mpr fun u hu => by simpa using h2 u hu]
    simp [ht]

/-- Witness for C7: deleting `"b"` removes the one matching record and keeps
the rest in order; deleting an absent id changes nothing. -/
theorem delete_unique_or_noop_witness :
    deleteTransaction "b" [txA, txB, txC] = [txA, txC] :=
  (delete_unique_or_noop "b" [txA, txB, txC] [txA] [txC] txB).2 rfl rfl
    (by intro u hu; simp only [List.mem_singleton] at hu; subst hu; simp [txA])
    (by intro u hu; simp only [List.mem_singleton] at hu; subst hu; simp [txC])

/-- C8: adding a record with a fresh id and immediately deleting that id
restores the original collection, provided the fresh id collides with no
existing id. -/
theorem add_then_delete (d : String) (a : JsValue) (ty : TransactionType)
    (freshId : String) (now : ℚ) (ts : List Transaction)
    (h : ∀ t ∈ ts, t.id ≠ freshId) :
    deleteTransaction freshId (addTransaction d a ty freshId now ts) = ts := by
  unfold addTransaction deleteTransaction
  rw [List.filter_append]
  rw [List.filter_eq_self.mpr fun u hu => by simpa using h u hu]
  simp

/-- Witness for C8 on a concrete one-element collection. -/
theorem add_then_delete_witness :
    deleteTransaction "fresh"
        (addTransaction "Gift" (.num (.val 10)) .INCOME "fresh" 5 [txA]) = [txA] :=
  add_then_delete "Gift" (.num (.val 10)) .INCOME "fresh" 5 [txA]
    (by intro u hu; simp only [List.mem_singleton] at hu; subst hu; simp [txA])

/-- C10: `delete(id)` removes every element whose id equals `id` — all
duplicates in one call — keeps every other element, and never reorders
(the result is a sublist of the input). -/
theorem delete_removes_all (id : String) (ts : List Transaction) :
    (∀ u ∈ deleteTransaction id ts, u.id ≠ id) ∧
    (deleteTransaction id ts).Sublist ts ∧
    (∀ u ∈ ts, u.id ≠ id → u ∈ deleteTransaction id ts) := by
  refine ⟨?_, List.filter_sublist _, ?_⟩
  · intro u hu
    have := List.of_mem_filter hu
    simpa using this
  · intro u hu h
    exact List.mem_filter.mpr ⟨hu, by simpa⟩

/-- Witness for C10: with two records duplicating id `"b"`, the record with
the different id survives the single delete call (and, by the theorem's
first conjunct, nothing with id `"b"` does). -/
theorem delete_removes_all_witness :
    txA ∈ deleteTransaction "b" [txB, txA, txBdup] :=
  (delete_removes_all "b" [txB, txA, txBdup]).2.2 txA (by simp) (by simp [txA])

/-- C4: the normalized `type` is always one of the two enum members; any
stored value other than the enum's two string values defaults to EXPENSE;
and the spec scenario `[{id:"a", amount:"50", type:"income"}]` (lowercase,
unrecognized) normalizes to a single record with `type = EXPENSE` and
`amount = 50`. -/
theorem type_always_enumerated (v : JsValue) :
    (normType v = .INCOME ∨ normType v = .EXPENSE) ∧
    (v ≠ .str "INCOME" → v ≠ .str "EXPENSE" → normType v = .EXPENSE) ∧
    normType (.str "income") = .EXPENSE ∧
    (normalizeSaved 0 uidSupply (.ok (.arr [scenObj]))).1 =
      [{ id := "a", description := "N/A", amount := .num (.val 50),
         type := .EXPENSE, date := 0 }] := by
  refine ⟨?_, ?_, by simp [normType, transactionTypeValues], ?_⟩
  · cases v with
    | str s =>
      by_cases h : s = "INCOME"
      · subst h; simp [normType, transactionTypeValues]
      · simp [normType]
        split <;> simp [h]
    | _ => simp [normType]
  · intro h1 h2
    cases v with
    | str s =>
      have hs1 : s ≠ "INCOME" := fun hc => h1 (by rw [hc])
      have hs2 : s ≠ "EXPENSE" := fun hc => h2 (by rw [hc])
      simp [normType, transactionTypeValues, hs1, hs2]
    | _ => simp [normType]
  · simp [normalizeSaved, normalizeList, normalizeElement, normalizeRecord, scenObj,
      getField, lookupField, jsOr, truthy, jsDateParse, toNumber, jsToString,
      strToNumber, trimWs, isWs, parseMantissa, parseExpPart, digitsToNat,
      normType, transactionTypeValues, uidSupply]

/-- Witness for C4 at a non-string stored type. -/
theorem type_always_enumerated_witness : normType (.bool true) = .EXPENSE :=
  (type_always_enumerated (.bool true)).2.1 (by simp) (by simp)

/-- C5: a persisted payload that fails to decode, or decodes to a non-array,
initializes the collection to empty, logging one diagnostic instead of
raising: the initializer is total and continues. -/
theorem bad_payload_resets_empty (now : ℚ) (ids : ℕ → String)
    (parsed : Except Unit JsValue)
    (h : parsed = .error () ∨ ∃ v, parsed = .ok v ∧ isArrValue v = false) :
    (normalizeSaved now ids parsed).1 = [] ∧
    ((normalizeSaved now ids parsed).2 = [.parseFailure] ∨
      (normalizeSaved now ids parsed).2 = [.notArray]) := by
  rcases h with h | ⟨v, rfl, hv⟩
  · subst h
    exact ⟨rfl, Or.inl rfl⟩
  · cases v with
    | arr xs => simp [isArrValue] at hv
    | _ => exact ⟨rfl, Or.inr rfl⟩

/-- Witness for C5 at a failed decode (e.g. the stored text `"not-json"`,
on which `JSON.parse` throws). -/
theorem bad_payload_resets_empty_witness :
    (normalizeSaved 0 uidSupply (.error ())).1 = [] :=
  (bad_payload_resets_empty 0 uidSupply (.error ()) (Or.inl rfl)).1

/-- C6: for a (non-throwing) raw record whose `date` field is missing or
whose date value does not parse to a valid timestamp, the normalized `date`
is the current time and exactly one diagnostic is recorded, referencing the
record's raw `id` field. -/
theorem bad_date_uses_now_and_warns (now : ℚ) (freshId : String) (t : JsValue)
    (hnull : t ≠ .null) (hundef : t ≠ .undefined)
    (hbad : getField t "date" = .undefined ∨ jsDateParse (getField t "date") = .nan) :
    normalizeElement now freshId t = .ok (normalizeRecord now freshId t) ∧
    (normalizeRecord now freshId t).1.date = now ∧
    ∃ d, (normalizeRecord now freshId t).2 = [d] ∧ d.refId = some (getField t "id") := by
  refine ⟨?_, ?_⟩
  · cases t <;> simp_all [normalizeElement]
  by_cases hc : (truthy t && truthy (getField t "date")) = true
  · have hnan : jsDateParse (getField t "date") = .nan := by
      rcases hbad with hb | hb
      · rw [hb] at hc
        simp [truthy] at hc
      · exact hb
    refine ⟨?_, Diag.invalidDate (getField t "id") (getField t "date"), ?_, rfl⟩ <;>
      simp [normalizeRecord, hc, hnan]
  · refine ⟨?_, Diag.missingDate (getField t "id"), ?_, rfl⟩ <;>
      simp [normalizeRecord, hc]

/-- Witness for C6 at a record whose date string is `"not-a-date"`. -/
theorem bad_date_uses_now_and_warns_witness :
    normalizeElement 7 "u" badDateObj = .ok (normalizeRecord 7 "u" badDateObj) ∧
    (normalizeRecord 7 "u" badDateObj).1.date = 7 ∧
    ∃ d, (normalizeRecord 7 "u" badDateObj).2 = [d] ∧
      d.refId = some (getField badDateObj "id") :=
  bad_date_uses_now_and_warns 7 "u" badDateObj (by simp [badDateObj])
    (by simp [badDateObj]) (Or.inr rfl)

/-- Counterexample to C2: the raw amount `"abc"` is truthy, so the code
computes `Number("abc")`, which is `NaN` — not `0` as the claim states. -/
theorem nonnumeric_amount_is_nan_not_zero :
    (normalizeRecord 0 "u" badAmountObj).1.amount = .num .nan ∧
    JsValue.num JsNum.nan ≠ JsValue.num (JsNum.val 0) := by
  constructor
  · simp [normalizeRecord, badAmountObj, getField, lookupField, jsOr, truthy,
      toNumber, strToNumber, trimWs, isWs, parseMantissa]
  · simp

/-- C2 (amended): `amount` normalizes via `Number(t.amount || 0)`: it is `0`
whenever the raw amount is falsy, and otherwise the `Number` coercion of the
raw amount — which is `NaN`, not `0`, for values that are non-numeric after
coercion; the string `"50"` normalizes to the number `50`. -/
theorem amount_normalization (now : ℚ) (freshId : String) (t : JsValue) :
    (truthy (getField t "amount") = false →
      (normalizeRecord now freshId t).1.amount = .num (.val 0)) ∧
    (truthy (getField t "amount") = true →
      (normalizeRecord now freshId t).1.amount = .num (toNumber (getField t "amount"))) ∧
    (normalizeRecord 0 "u" (JsValue.obj [("amount", .str "50")])).1.amount =
      .num (.val 50) := by
  refine ⟨fun h => ?_, fun h => ?_, ?_⟩
  · simp [normalizeRecord, jsOr, h, toNumber]
  · simp [normalizeRecord, jsOr, h]
  · simp [normalizeRecord, getField, lookupField, jsOr, truthy, toNumber,
      strToNumber, trimWs, isWs, parseMantissa, parseExpPart, digitsToNat]

/-- Witness for C2 (amended) at a record with no amount field (falsy raw
amount) — the normalized amount is `0`. -/
theorem amount_normalization_witness :
    (normalizeRecord 0 "u" (JsValue.obj [])).1.amount = .num (.val 0) :=
  (amount_normalization 0 "u" (.obj [])).1 rfl

/-- Counterexample to C3: the payload `[null]` decodes to an array, yet
normalization yields no output element at all — `${t.id}` throws on the
`null` element, the `catch` resets the whole collection — so an input of
one element produces zero outputs. -/
theorem null_element_drops_everything :
    (normalizeSaved 0 uidSupply (.ok (.arr [JsValue.null]))).1 = [] ∧
    (0 : ℕ) ≠ [JsValue.null].length := by
  exact ⟨rfl, by simp⟩

/-- The map callback returns (rather than throws) exactly on non-`null`,
non-`undefined` elements. -/
theorem normalizeElement_ok (now : ℚ) (freshId : String) (t : JsValue)
    (h1 : t ≠ .null) (h2 : t ≠ .undefined) :
    normalizeElement now freshId t = .ok (normalizeRecord now freshId t) := by
  cases t <;> simp_all [normalizeElement]

/-- Over a list of non-`null`, non-`undefined` elements, the map succeeds
and produces exactly the index-aligned record of each element. -/
theorem normalizeList_ok (now : ℚ) (ids : ℕ → String) (xs : List JsValue)
    (h : ∀ x ∈ xs, x ≠ .null ∧ x ≠ .undefined) (i : ℕ) :
    ∃ ds, normalizeList now ids i xs = .ok (normalizeAllFrom now ids i xs, ds) := by
  induction xs generalizing i with
  | nil => exact ⟨[], rfl⟩
  | cons x xs ih =>
    have hx := h x (List.mem_cons_self x xs)
    obtain ⟨ds, hds⟩ := ih (fun y hy => h y (List.mem_cons_of_mem x hy)) (i + 1)
    refine ⟨(normalizeRecord now (ids i) x).2 ++ ds, ?_⟩
    simp [normalizeList, normalizeElement_ok now (ids i) x hx.1 hx.2, hds,
      normalizeAllFrom]

/-- The map `normalizeAllFrom` yields one record per element. -/
theorem normalizeAllFrom_length (now : ℚ) (ids : ℕ → String) (xs : List JsValue) (i : ℕ) :
    (normalizeAllFrom now ids i xs).length = xs.length := by
  induction xs generalizing i with
  | nil => rfl
  | cons x xs ih => simp [normalizeAllFrom, ih]

/-- C3 (amended): for a payload decoding to an array all of whose elements
are non-`null` (and non-`undefined`), normalization outputs exactly one
record per input element, repaired field-by-field, in input order — the
index-aligned map `normalizeAllFrom`; the count is preserved.  (When some
element is `null`, the callback throws and the whole output is empty
instead, as the counterexample shows.) -/
theorem normalize_maps_elementwise (now : ℚ) (ids : ℕ → String) (xs : List JsValue)
    (h : ∀ x ∈ xs, x ≠ .null ∧ x ≠ .undefined) :
    (normalizeSaved now ids (.ok (.arr xs))).1 = normalizeAllFrom now ids 0 xs ∧
    (normalizeSaved now ids (.ok (.arr xs))).1.length = xs.length := by
  obtain ⟨ds, hds⟩ := normalizeList_ok now ids xs h 0
  constructor
  · simp [normalizeSaved, hds]
  · simp [normalizeSaved, hds, normalizeAllFrom_length]

/-- Witness for C3 (amended) on the one-element scenario payload. -/
theorem normalize_maps_elementwise_witness :
    (normalizeSaved 0 uidSupply (.ok (.arr [scenObj]))).1.length = [scenObj].length :=
  (normalize_maps_elementwise 0 uidSupply [scenObj] (by simp [scenObj])).2
